import Mathlib

/-!
Verification of the local deployment notifier
(`scripts/local_deployment_notifier.py`).

The script drives a multi-phase local Forge deployment and keeps Atlassian
Compass informed through deployment events.  This file gives a shallow
embedding of its pure parts and of the effectful parts with environment
responses passed in explicitly, and proves or refutes the frozen claims
about it.

Strings are modelled with Lean `String` (character lists); Python string
slicing and `len` are character based, matching `String.data`.  Python
integers are modelled with `Int` where negative intermediate values can
occur and `Nat` elsewhere.
-/

/-! ## String helpers mirroring the Python primitives used by the script -/

/-- Python `s[:n]` (first `n` characters). -/
def strTake (s : String) (n : Nat) : String := ⟨s.data.take n⟩

/-- Python `s[n:]` (all but the first `n` characters). -/
def strDrop (s : String) (n : Nat) : String := ⟨s.data.drop n⟩

/-- Python `"\n".join(lines)`. -/
def joinNL : List String → String
  | [] => ""
  | [l] => l
  | l :: ls => l ++ "\n" ++ joinNL ls

/-- Python `", ".join(parts)`. -/
def joinComma : List String → String
  | [] => ""
  | [s] => s
  | s :: ss => s ++ ", " ++ joinComma ss

/-- The characters after the last `/` of a path. -/
def basenameChars (cs : List Char) : List Char :=
  cs.foldl (fun acc c => if c = '/' then [] else acc ++ [c]) []

/-- Python `os.path.basename` for POSIX paths: the part after the last `/`. -/
def pyBasename (p : String) : String := ⟨basenameChars p.data⟩

/-- Python `str.upper` for one character, as its (possibly multi-character)
uppercase image.  The table is complete for every character whose CPython
uppercase image consists only of ASCII letters: the ASCII lowercase range
plus `ß`, `ı`, `ſ` and the Latin ligatures U+FB00 to U+FB06.  Every other
character (the ASCII uppercase letters included) uppercases to itself or to a
string containing a character outside `A`-`Z`, so no string containing it can
uppercase to one of the all-ASCII environment names; mapping such a character
to itself therefore gives `validate_and_map_environment` the program's result
on every input. -/
def pyUpperChar (c : Char) : List Char :=
  if c = 'ß' then ['S', 'S']
  else if c = 'ı' then ['I']
  else if c = 'ſ' then ['S']
  else if c = 'ﬀ' then ['F', 'F']
  else if c = 'ﬁ' then ['F', 'I']
  else if c = 'ﬂ' then ['F', 'L']
  else if c = 'ﬃ' then ['F', 'F', 'I']
  else if c = 'ﬄ' then ['F', 'F', 'L']
  else if c = 'ﬅ' then ['S', 'T']
  else if c = 'ﬆ' then ['S', 'T']
  else if 97 ≤ c.toNat ∧ c.toNat ≤ 122 then [Char.ofNat (c.toNat - 32)]
  else [c]

/-- Python `s.upper()`: the concatenated per-character uppercase images. -/
def pyUpperStr (s : String) : String := ⟨(s.data.map pyUpperChar).flatten⟩

theorem str_length_data (s : String) : s.length = s.data.length := rfl

theorem str_ext (a b : String) (h : a.data = b.data) : a = b := by
  cases a; cases b; exact congrArg String.mk h

theorem strTake_length_le (s : String) (n : Nat) : (strTake s n).length ≤ n := by
  show (s.data.take n).length ≤ n
  exact (List.length_take n s.data).le.trans (Nat.min_le_left _ _)

theorem toNat_pyOfNat_valid (n : Nat) (h : n.isValidChar) : (Char.ofNat n).toNat = n := by
  simp only [Char.ofNat, h, dif_pos, Char.ofNatAux, Char.toNat]
  simp [UInt32.toNat, BitVec.toNat_ofNatLt]

theorem pyUpperChar_fixed (d : Char) (hlo : 65 ≤ d.toNat) (hhi : d.toNat ≤ 90) :
    pyUpperChar d = [d] := by
  have h1 : d ≠ 'ß' := by
    intro h
    rw [h] at hhi
    exact absurd hhi (by decide)
  have h2 : d ≠ 'ı' := by
    intro h
    rw [h] at hhi
    exact absurd hhi (by decide)
  have h3 : d ≠ 'ſ' := by
    intro h
    rw [h] at hhi
    exact absurd hhi (by decide)
  have h4 : d ≠ 'ﬀ' := by
    intro h
    rw [h] at hhi
    exact absurd hhi (by decide)
  have h5 : d ≠ 'ﬁ' := by
    intro h
    rw [h] at hhi
    exact absurd hhi (by decide)
  have h6 : d ≠ 'ﬂ' := by
    intro h
    rw [h] at hhi
    exact absurd hhi (by decide)
  have h7 : d ≠ 'ﬃ' := by
    intro h
    rw [h] at hhi
    exact absurd hhi (by decide)
  have h8 : d ≠ 'ﬄ' := by
    intro h
    rw [h] at hhi
    exact absurd hhi (by decide)
  have h9 : d ≠ 'ﬅ' := by
    intro h
    rw [h] at hhi
    exact absurd hhi (by decide)
  have h10 : d ≠ 'ﬆ' := by
    intro h
    rw [h] at hhi
    exact absurd hhi (by decide)
  unfold pyUpperChar
  rw [if_neg h1, if_neg h2, if_neg h3, if_neg h4, if_neg h5, if_neg h6,
    if_neg h7, if_neg h8, if_neg h9, if_neg h10,
    if_neg (by omega : ¬ (97 ≤ d.toNat ∧ d.toNat ≤ 122))]

set_option maxHeartbeats 1000000 in
theorem pyUpperChar_image (c : Char) :
    ∀ d ∈ pyUpperChar c, pyUpperChar d = [d] := by
  by_cases h1 : c = 'ß'
  · subst h1
    decide
  by_cases h2 : c = 'ı'
  · subst h2
    decide
  by_cases h3 : c = 'ſ'
  · subst h3
    decide
  by_cases h4 : c = 'ﬀ'
  · subst h4
    decide
  by_cases h5 : c = 'ﬁ'
  · subst h5
    decide
  by_cases h6 : c = 'ﬂ'
  · subst h6
    decide
  by_cases h7 : c = 'ﬃ'
  · subst h7
    decide
  by_cases h8 : c = 'ﬄ'
  · subst h8
    decide
  by_cases h9 : c = 'ﬅ'
  · subst h9
    decide
  by_cases h10 : c = 'ﬆ'
  · subst h10
    decide
  by_cases h11 : 97 ≤ c.toNat ∧ c.toNat ≤ 122
  · have hch : pyUpperChar c = [Char.ofNat (c.toNat - 32)] := by
      unfold pyUpperChar
      rw [if_neg h1, if_neg h2, if_neg h3, if_neg h4, if_neg h5, if_neg h6,
        if_neg h7, if_neg h8, if_neg h9, if_neg h10, if_pos h11]
    rw [hch]
    intro d hd
    rw [List.mem_singleton] at hd
    subst hd
    have hv : (c.toNat - 32).isValidChar := by
      left
      omega
    have ht : (Char.ofNat (c.toNat - 32)).toNat = c.toNat - 32 :=
      toNat_pyOfNat_valid _ hv
    exact pyUpperChar_fixed _ (by omega) (by omega)
  · have hch : pyUpperChar c = [c] := by
      unfold pyUpperChar
      rw [if_neg h1, if_neg h2, if_neg h3, if_neg h4, if_neg h5, if_neg h6,
        if_neg h7, if_neg h8, if_neg h9, if_neg h10, if_neg h11]
    rw [hch]
    intro d hd
    rw [List.mem_singleton] at hd
    subst hd
    exact hch

theorem join_map_self (f : Char → List Char) :
    ∀ l : List Char, (∀ d ∈ l, f d = [d]) → (l.map f).flatten = l := by
  intro l
  induction l with
  | nil => intro _; rfl
  | cons d l ih =>
    intro h
    show f d ++ (l.map f).flatten = d :: l
    rw [h d (List.mem_cons_self d l), ih (fun e he => h e (List.mem_cons_of_mem d he))]
    rfl

theorem pyUpperStr_idem (s : String) : pyUpperStr (pyUpperStr s) = pyUpperStr s := by
  apply str_ext
  show (((s.data.map pyUpperChar).flatten).map pyUpperChar).flatten =
    (s.data.map pyUpperChar).flatten
  refine join_map_self pyUpperChar _ ?_
  intro d hd
  rw [List.mem_flatten] at hd
  obtain ⟨l, hl, hdl⟩ := hd
  obtain ⟨c, _, rfl⟩ := List.mem_map.mp hl
  exact pyUpperChar_image c d hdl

/-! ## Environment mapping (`VALID_ENVIRONMENT_TYPES`,
`validate_and_map_environment`) -/

/-- Source constant `VALID_ENVIRONMENT_TYPES`. -/
def VALID_ENVIRONMENT_TYPES : List String :=
  ["PRODUCTION", "STAGING", "TESTING", "DEVELOPMENT", "UNMAPPED"]

/-- Source method `validate_and_map_environment`: uppercase the input and
keep it when it is a known environment type, otherwise `UNMAPPED`. -/
def validate_and_map_environment (user_input : String) : String :=
  let normalized_input := pyUpperStr user_input
  if normalized_input ∈ VALID_ENVIRONMENT_TYPES then normalized_input
  else "UNMAPPED"

/-! ## Run state and the payload builder (`__init__`, `create_deployment_url`,
`create_event_payload`) -/

/-- Deployment states accepted by the Compass events API. -/
inductive DeploymentState
  | IN_PROGRESS
  | SUCCESSFUL
  | FAILED
  | CANCELLED
deriving DecidableEq

/-- Result of `get_git_info` (short hash and branch, `unknown` on failure). -/
structure GitInfo where
  hash : String
  branch : String
deriving DecidableEq

/-- One verified installation as stored by the notifier after verification. -/
structure Installation where
  site_url : String
  cloud_id : String
  component_id : String
  forge_environment : String
deriving DecidableEq

/-- The per-run fields of `LocalDeploymentNotifier` fixed in `__init__` or by
the deploy/migration phases.  `base_sequence_number` is the millisecond clock
reading taken at creation. -/
structure NotifierState where
  environment : String
  component_slug : String
  github_repo : Option String
  deployment_run_id : String
  deployment_start_time : String
  base_sequence_number : Int
  deployed_version : Option String
  schema_version : Option String

/-- Source `self.environment_type = self.validate_and_map_environment(environment)`
from `__init__`. -/
def NotifierState.environment_type (n : NotifierState) : String :=
  validate_and_map_environment n.environment

/-- Source method `create_deployment_url`.  `full_hash` is the result of the
external `git rev-parse HEAD` call (`none` when the command failed). -/
def create_deployment_url (n : NotifierState) (git_info : GitInfo)
    (full_hash : Option String) : String :=
  if n.github_repo.isSome ∧ git_info.hash ≠ "unknown" then
    "https://github.com/" ++ n.github_repo.getD "" ++ "/commit/" ++
      full_hash.getD git_info.hash
  else
    "https://localhost/" ++ n.component_slug ++ "/" ++ n.deployment_run_id

/-- The flattened wire payload assembled by `create_event_payload`. -/
structure EventPayload where
  cloudId : String
  updateSequenceNumber : Int
  displayName : String
  description : String
  url : String
  lastUpdated : String
  externalEventSourceId : String
  sequenceNumber : Int
  state : DeploymentState
  pipelineId : String
  pipelineUrl : String
  pipelineDisplayName : String
  envDisplayName : String
  environmentId : String
  category : String
  startedAt : String
  completedAt : Option String
  componentId : Option String

/-- Source method `create_event_payload`.  The ambient effects are passed
explicitly: `now_ms` is the millisecond clock reading taken inside the
method, `now_iso` the ISO timestamp taken at its start, `full_hash` the
result of the `git rev-parse HEAD` call made by `create_deployment_url`. -/
def create_event_payload (n : NotifierState) (installation : Installation)
    (state : DeploymentState) (description : String) (git_info : GitInfo)
    (now_ms : Int) (now_iso : String) (full_hash : Option String) : EventPayload :=
  let update_sequence_number : Int :=
    if state = DeploymentState.IN_PROGRESS then n.base_sequence_number
    else
      if now_ms ≤ n.base_sequence_number then n.base_sequence_number + 1
      else now_ms
  let deployment_url := create_deployment_url n git_info full_hash
  { cloudId := installation.cloud_id
    updateSequenceNumber := update_sequence_number
    displayName := n.component_slug ++ " deployment"
    description := description
    url := deployment_url
    lastUpdated := now_iso
    externalEventSourceId := "forge_cli"
    sequenceNumber := n.base_sequence_number
    state := state
    pipelineId := n.deployment_run_id
    pipelineUrl := deployment_url
    pipelineDisplayName := "Local Forge Deployment - " ++ git_info.hash
    envDisplayName := n.environment
    environmentId := n.environment_type
    category := n.environment_type
    startedAt := n.deployment_start_time
    completedAt := if state = DeploymentState.IN_PROGRESS then none else some now_iso
    componentId := some installation.component_id }

/-! ## Description composer (`_format_uncommitted_line`,
`create_deployment_description`) -/

/-- One entry of the per-file statistics of `get_uncommitted_changes_detailed`. -/
structure FileStat where
  path : String
  additions : Nat
  deletions : Nat
deriving DecidableEq

/-- Result of `get_uncommitted_changes_detailed` when changes exist. -/
structure Uncommitted where
  count : Nat
  total_additions : Nat
  total_deletions : Nat
  files : List FileStat
deriving DecidableEq

/-- The per-file fragment (name, additions, deletions) built inside
`_format_uncommitted_line`. -/
def file_fragment (f : FileStat) : String :=
  pyBasename f.path ++ " (+" ++ toString f.additions ++ "/-" ++
    toString f.deletions ++ ")"

/-- The `all_file_strs` list of `_format_uncommitted_line`. -/
def uncommitted_fragments (u : Uncommitted) : List String :=
  u.files.map file_fragment

/-- The `base` string of `_format_uncommitted_line`: a summary of the change
count and the total additions and deletions, ending in `" - "`. -/
def uncommitted_base (u : Uncommitted) : String :=
  "+ " ++ toString u.count ++ " uncommitted: (+" ++ toString u.total_additions ++
    "/-" ++ toString u.total_deletions ++ ") - "

/-- The file-fitting loop of `_format_uncommitted_line`: walk the fragments in
order, accept one when the joined accepted fragments — plus five characters
reserved for `", ..."` whenever further files remain — fit `remaining`, and
stop at the first fragment that does not. -/
def greedyFitAux : List String → List String → Nat → List String
  | [], file_parts, _ => file_parts
  | file_str :: rest, file_parts, remaining =>
    let test_str :=
      if file_parts.isEmpty then file_str
      else joinComma file_parts ++ ", " ++ file_str
    let required_space := test_str.length + (if rest.isEmpty then 0 else 5)
    if required_space ≤ remaining then
      greedyFitAux rest (file_parts ++ [file_str]) remaining
    else file_parts

/-- Fragments accepted by `_format_uncommitted_line` for a given remaining
budget. -/
def greedy_file_parts (u : Uncommitted) (remaining : Nat) : List String :=
  greedyFitAux (uncommitted_fragments u) [] remaining

/-- Source method `_format_uncommitted_line`. -/
def format_uncommitted_line (u : Uncommitted) (max_length : Nat) : Option String :=
  let base := uncommitted_base u
  if max_length < base.length + 3 then none
  else
    let remaining_space := max_length - base.length
    let all_file_strs := uncommitted_fragments u
    let file_parts := greedyFitAux all_file_strs [] remaining_space
    if file_parts.isEmpty then some (base ++ "...")
    else
      let files_str := joinComma file_parts
      if file_parts.length < all_file_strs.length then
        some (base ++ (files_str ++ ", ..."))
      else some (base ++ files_str)

/-- The inputs of `create_deployment_description`: the target state, the run
state fields it reads, and the results of the git/forge collaborator calls it
makes (`get_git_info`, `get_user_name`, `get_uncommitted_changes_detailed`). -/
structure DescInput where
  state : DeploymentState
  deployed_version : Option String
  schema_version : Option String
  branch : String
  hash : String
  user_name : String
  uncommitted : Option Uncommitted

/-- The version and schema lines of `create_deployment_description` (the
empty string is falsy in Python, so it adds no line). -/
def desc_version_lines (x : DescInput) : List String :=
  (match x.state, x.deployed_version with
   | DeploymentState.SUCCESSFUL, some v => if v = "" then [] else ["Version: " ++ v]
   | _, _ => []) ++
  (match x.schema_version with
   | some sv => if sv = "" then [] else ["Schema: " ++ sv]
   | none => [])

/-- The branch line's truncation: past 30 characters keep 27 plus `"..."`. -/
def desc_branch (x : DescInput) : String :=
  if 30 < x.branch.length then strTake x.branch 27 ++ "..." else x.branch

/-- The lines of `create_deployment_description` before the uncommitted and
user lines. -/
def desc_lines_before_uncommitted (x : DescInput) : List String :=
  desc_version_lines x ++ ["Branch: " ++ desc_branch x, "Commit: " ++ x.hash]

/-- The `user_line` of `create_deployment_description`. -/
def desc_user_line (x : DescInput) : String := "User: " ++ x.user_name

/-- The `space_for_uncommitted` computation:
`255 - len(base_description) - len(user_line) - 2` (a Python int, possibly
negative, hence `Int`). -/
def space_for_uncommitted (x : DescInput) : Int :=
  255 - (joinNL (desc_lines_before_uncommitted x)).length -
    (desc_user_line x).length - 2

/-- The full line list assembled by `create_deployment_description`: the base
lines, the uncommitted line when present and affordable, then the user line. -/
def desc_lines (x : DescInput) : List String :=
  let ls := desc_lines_before_uncommitted x
  let with_uncommitted :=
    match x.uncommitted with
    | some u =>
      if 30 < space_for_uncommitted x then
        match format_uncommitted_line u (space_for_uncommitted x).toNat with
        | some l => ls ++ [l]
        | none => ls
      else ls
    | none => ls
  with_uncommitted ++ [desc_user_line x]

/-- The joined description before the final safety truncation. -/
def desc_untruncated (x : DescInput) : String := joinNL (desc_lines x)

/-- Source method `create_deployment_description`, including the final safety
truncation to 252 characters plus `"..."`. -/
def create_deployment_description (x : DescInput) : String :=
  let description := desc_untruncated x
  if 255 < description.length then strTake description 252 ++ "..."
  else description

/-! ## Installation discovery and verification (`get_all_installations`,
`initialize_installations`) -/

/-- One entry of the `forge install list --json` output. -/
structure RawInstall where
  site : String
  environment : String
deriving DecidableEq

/-- One installation as collected by `get_all_installations` after the cloud
id lookup succeeded. -/
structure DiscoveredInstall where
  site_url : String
  cloud_id : String
  forge_environment : String
deriving DecidableEq

/-- Source method `get_all_installations`: keep, in order, every discovered
installation whose `tenant_info` cloud id lookup (`cloudIdOf`) succeeds. -/
def get_all_installations (cloudIdOf : String → Option String) :
    List RawInstall → List DiscoveredInstall
  | [] => []
  | install :: rest =>
    match cloudIdOf install.site with
    | some cloud_id =>
      ⟨install.site, cloud_id, install.environment⟩ ::
        get_all_installations cloudIdOf rest
    | none => get_all_installations cloudIdOf rest

/-- The site-URL cleanup done before the GraphQL calls: strip a leading
`https://` and a trailing slash. -/
def clean_site_url (site_url : String) : String :=
  let s := if site_url.startsWith "https://" then strDrop site_url 8 else site_url
  if s.endsWith "/" then strTake s (s.length - 1) else s

/-- The verification loop of `initialize_installations`: for each discovered
installation query `search_component_by_slug` (modelled by `lookup`, taking
the slug, the cloud id and the cleaned site URL); keep the installation when
the lookup returns a component id, skip it otherwise (also on exceptions). -/
def verify_installations (lookup : String → String → String → Option String)
    (slug : String) : List DiscoveredInstall → List Installation
  | [] => []
  | d :: rest =>
    match lookup slug d.cloud_id (clean_site_url d.site_url) with
    | some component_id =>
      ⟨d.site_url, d.cloud_id, component_id, d.forge_environment⟩ ::
        verify_installations lookup slug rest
    | none => verify_installations lookup slug rest

/-- Source method `initialize_installations` as a whole: an empty discovery
proceeds with no installations, and discovered-but-none-verified raises. -/
def init_installations_result (lookup : String → String → String → Option String)
    (slug : String) (discovered : List DiscoveredInstall) :
    Except String (List Installation) :=
  let verified := verify_installations lookup slug discovered
  if ¬ discovered.isEmpty ∧ verified.isEmpty then
    Except.error ("component could not be verified in any of the " ++
      toString discovered.length ++ " forge installation(s)")
  else Except.ok verified

/-- The spec's words for the verifier (§4.4), for comparison with the source:
deduplicate the discovered installations by cloud id, first occurrence wins,
before the lookup step. -/
def spec_dedup_by_cloud_id : List DiscoveredInstall → List DiscoveredInstall :=
  go []
where
  go (seen : List String) : List DiscoveredInstall → List DiscoveredInstall
    | [] => []
    | d :: rest =>
      if d.cloud_id ∈ seen then go seen rest
      else d :: go (d.cloud_id :: seen) rest

/-! ## Notification dispatcher (`_handle_404_response`,
`_process_single_in_progress_notification`, `send_in_progress_notifications`,
`send_final_notifications`) -/

/-- The parts of an HTTP response to an event submission that the script
inspects: the status code, whether the body parses as JSON, and whether the
parsed errors contain the `CREATE_EVENT_SOURCE_NOT_FOUND` type. -/
structure SubmitResponse where
  status : Nat
  jsonOk : Bool
  hasNotFoundSignal : Bool
deriving DecidableEq

/-- Environment responses for the auto-provisioning flow
(`create_and_attach_event_source` and the retried submission):
whether the create and attach GraphQL mutations succeed, and the status of
the retried submission (`none` when the retry request raises). -/
structure ProvisionEnv where
  createOk : Bool
  attachOk : Bool
  retryStatus : Option Nat
deriving DecidableEq

/-- Per-installation outcomes of a single IN_PROGRESS submission, flattened
from the `(success, needs_setup, error_message)` triple of
`_process_single_in_progress_notification`. -/
inductive NotifResult
  | sent
  | setupFailed
  | sendFailed
deriving DecidableEq

/-- Source method `_try_create_event_source_and_retry`: provision the event
source (both mutations must succeed) and resubmit once; only a 200 or 202 on
the retry counts as success.  A raised retry request propagates to the
caller's handler, which also yields `false` with `needs_setup`. -/
def try_create_event_source_and_retry (p : ProvisionEnv) : Bool :=
  p.createOk && p.attachOk &&
    (p.retryStatus = some 200 || p.retryStatus = some 202)

/-- Source method `_handle_404_response`, returning `(success, needs_setup)`:
the provisioning flow runs only when the body parses and carries the
`CREATE_EVENT_SOURCE_NOT_FOUND` signal; every failure inside this handler
(including a 404 without the signal or an unparseable body) reports
`needs_setup`. -/
def handle_404_response (r : SubmitResponse) (p : ProvisionEnv) : Bool × Bool :=
  if r.jsonOk && r.hasNotFoundSignal then
    if try_create_event_source_and_retry p then (true, false) else (false, true)
  else (false, true)

/-- Whether `_handle_404_response` reaches `_try_create_event_source_and_retry`,
i.e. whether auto-provisioning is attempted for this response. -/
def attempts_provisioning (resp : Option SubmitResponse) : Bool :=
  match resp with
  | some r => r.status = 404 && r.jsonOk && r.hasNotFoundSignal
  | none => false

/-- Source method `_process_single_in_progress_notification`.  `resp` is the
response of the initial submission (`none` when the request itself raises,
which the outer handler turns into a send failure). -/
def process_single_in_progress (resp : Option SubmitResponse)
    (p : ProvisionEnv) : NotifResult :=
  match resp with
  | none => NotifResult.sendFailed
  | some r =>
    if r.status = 404 then
      let (success, needs_setup) := handle_404_response r p
      if success then NotifResult.sent
      else if needs_setup then NotifResult.setupFailed
      else NotifResult.sendFailed
    else if r.status ≠ 200 ∧ r.status ≠ 202 then NotifResult.sendFailed
    else NotifResult.sent

/-- One installation together with the environment responses its submissions
receive in this run: the IN_PROGRESS response and provisioning outcomes, and
the status of its terminal-phase submission (`none` when that request or the
payload validation raises). -/
structure InstEnv where
  installation : Installation
  inProgressResp : Option SubmitResponse
  provision : ProvisionEnv
  finalStatus : Option Nat
deriving DecidableEq

/-- The IN_PROGRESS outcome classification of one installation's environment. -/
def notif_result (e : InstEnv) : NotifResult :=
  process_single_in_progress e.inProgressResp e.provision

/-- The error raised by `_validate_notification_results`, carrying the
affected site URLs (setup failures are checked first). -/
inductive PhaseError
  | setupError (sites : List String)
  | sendError (sites : List String)
deriving DecidableEq

/-- Source method `_validate_notification_results`. -/
def validate_notification_results (needs_setup failures : List Installation) :
    Option PhaseError :=
  if ¬ needs_setup.isEmpty then
    some (PhaseError.setupError (needs_setup.map Installation.site_url))
  else if ¬ failures.isEmpty then
    some (PhaseError.sendError (failures.map Installation.site_url))
  else none

/-- Outcome of `send_in_progress_notifications`: the three outcome lists of
its loop, the installations that `_send_failed_to_successful_installations`
submits a compensating FAILED to, and the error it raises (if any). -/
structure InProgressOutcome where
  successful : List Installation
  needs_setup : List Installation
  failures : List Installation
  compensated : List Installation
  error : Option PhaseError

/-- Source method `send_in_progress_notifications`: classify every
installation, then — only when the `failures` list is non-empty — send a
best-effort FAILED to the installations that reached `sent`, and finally
raise through `_validate_notification_results`. -/
def send_in_progress_notifications (insts : List InstEnv) : InProgressOutcome :=
  let successful :=
    (insts.filter (fun e => notif_result e = NotifResult.sent)).map
      InstEnv.installation
  let needs_setup :=
    (insts.filter (fun e => notif_result e = NotifResult.setupFailed)).map
      InstEnv.installation
  let failures :=
    (insts.filter (fun e => notif_result e = NotifResult.sendFailed)).map
      InstEnv.installation
  { successful := successful
    needs_setup := needs_setup
    failures := failures
    compensated := if failures.isEmpty then [] else successful
    error := validate_notification_results needs_setup failures }

/-- Whether a terminal-phase submission for this installation succeeds: the
request must not raise and must return 200 or 202. -/
def final_ok (e : InstEnv) : Bool :=
  e.finalStatus = some 200 || e.finalStatus = some 202

/-- The failed-installation list collected by `send_final_notifications` and
passed to `_report_failed_notifications` (best effort: every installation is
attempted, failures are only collected). -/
def send_final_failures (insts : List InstEnv) : List Installation :=
  (insts.filter (fun e => ¬ final_ok e)).map InstEnv.installation

/-! ## Deployment orchestrator (`_should_send_failed_notification`,
`_handle_deployment_failure`, `deploy`) -/

/-- Source method `_should_send_failed_notification`. -/
def should_send_failed_notification (in_progress_sent deployment_succeeded
    post_deployment_phase is_migration_failure : Bool) : Bool :=
  in_progress_sent &&
    (!deployment_succeeded || is_migration_failure ||
      (post_deployment_phase && deployment_succeeded))

/-- The environment of one whole run: the per-installation responses, whether
`forge deploy` succeeds, whether the migration trigger raises a fatal
migration failure, and whether `send_deployment_event('SUCCESSFUL')` raises
before dispatching (e.g. a failing `forge whoami` while composing the
description). -/
structure RunEnv where
  insts : List InstEnv
  deployOk : Bool
  migrationFatal : Bool
  successSendRaises : Bool

/-- Observable outcome of one run: which installations received a 2xx-accepted
IN_PROGRESS event, which received a FAILED submission attempt, which
terminal-phase failures the post-run summary reports, and the process exit
code. -/
structure RunResult where
  acknowledged : List Installation
  failedRecipients : List Installation
  reportedFailures : List Installation
  exitCode : Nat
deriving DecidableEq

/-- Source method `deploy` (with `main`'s exit-code behaviour): run the
IN_PROGRESS phase; on its error the handler sees `in_progress_sent = false`
and sends nothing further.  Otherwise run the deploy, migration and terminal
phases; each failure is routed through `_handle_deployment_failure`, whose
`_should_send_failed_notification` flags are exactly those set in `deploy` at
that point, and which dispatches FAILED to all installations when true.
A normal completion exits 0 regardless of terminal-phase delivery failures. -/
def deploy (env : RunEnv) : RunResult :=
  let p := send_in_progress_notifications env.insts
  if p.error.isSome then
    let sends := should_send_failed_notification false false false false
    { acknowledged := p.successful
      failedRecipients :=
        p.compensated ++ (if sends then env.insts.map InstEnv.installation else [])
      reportedFailures := []
      exitCode := 1 }
  else
    let all := env.insts.map InstEnv.installation
    if ¬ env.deployOk then
      let sends := should_send_failed_notification true false false false
      { acknowledged := p.successful
        failedRecipients := if sends then all else []
        reportedFailures := []
        exitCode := 1 }
    else if env.migrationFatal then
      let sends := should_send_failed_notification true true true true
      { acknowledged := p.successful
        failedRecipients := if sends then all else []
        reportedFailures := []
        exitCode := 1 }
    else if env.successSendRaises then
      let sends := should_send_failed_notification true true true false
      { acknowledged := p.successful
        failedRecipients := if sends then all else []
        reportedFailures := []
        exitCode := 1 }
    else
      { acknowledged := p.successful
        failedRecipients := []
        reportedFailures := send_final_failures env.insts
        exitCode := 0 }

/-! ## Helper lemmas about the dispatcher and orchestrator -/

theorem validate_results_none_iff (needs_setup failures : List Installation) :
    validate_notification_results needs_setup failures = none ↔
      needs_setup = [] ∧ failures = [] := by
  unfold validate_notification_results
  split_ifs with h1 h2 <;> simp_all [List.isEmpty_iff]

theorem compensated_subset_successful (insts : List InstEnv) (i : Installation)
    (h : i ∈ (send_in_progress_notifications insts).compensated) :
    i ∈ (send_in_progress_notifications insts).successful := by
  unfold send_in_progress_notifications at h ⊢
  dsimp only at h ⊢
  split at h
  · exact absurd h (List.not_mem_nil i)
  · exact h

theorem successful_eq_all_of_error_none (insts : List InstEnv)
    (h : (send_in_progress_notifications insts).error = none) :
    (send_in_progress_notifications insts).successful =
      insts.map InstEnv.installation := by
  have h' : (insts.filter (fun e => notif_result e = NotifResult.setupFailed)).map
        InstEnv.installation = [] ∧
      (insts.filter (fun e => notif_result e = NotifResult.sendFailed)).map
        InstEnv.installation = [] :=
    (validate_results_none_iff _ _).1 h
  have hsetup := (List.filter_eq_nil_iff).1 ((List.map_eq_nil_iff).1 h'.1)
  have hsend := (List.filter_eq_nil_iff).1 ((List.map_eq_nil_iff).1 h'.2)
  have hall : ∀ e ∈ insts, notif_result e = NotifResult.sent := by
    intro e he
    have h1 := hsetup e he
    have h2 := hsend e he
    cases hr : notif_result e with
    | sent => rfl
    | setupFailed => exact absurd (by simp [hr]) h1
    | sendFailed => exact absurd (by simp [hr]) h2
  show (insts.filter (fun e => notif_result e = NotifResult.sent)).map
      InstEnv.installation = insts.map InstEnv.installation
  rw [(List.filter_eq_self).2 (fun e he => by simp [hall e he])]

/-! ## Claims -/

/-- C3: for every run and installation, the IN_PROGRESS payload's
`updateSequenceNumber` equals the run's `base_sequence_number`; every
terminal payload's `updateSequenceNumber` equals
`max(currentClockReadingMs, base_sequence_number + 1)`; hence for any pair of
clock readings the terminal value strictly exceeds the IN_PROGRESS value. -/
theorem c3_update_sequence_numbers
    (n : NotifierState) (inst : Installation) (desc1 desc2 : String)
    (g1 g2 : GitInfo) (now1 now2 : Int) (iso1 iso2 : String)
    (fh1 fh2 : Option String) (st : DeploymentState)
    (hst : st ≠ DeploymentState.IN_PROGRESS) :
    (create_event_payload n inst DeploymentState.IN_PROGRESS desc1 g1 now1 iso1
        fh1).updateSequenceNumber = n.base_sequence_number ∧
    (create_event_payload n inst st desc2 g2 now2 iso2
        fh2).updateSequenceNumber = max now2 (n.base_sequence_number + 1) ∧
    (create_event_payload n inst DeploymentState.IN_PROGRESS desc1 g1 now1 iso1
        fh1).updateSequenceNumber <
      (create_event_payload n inst st desc2 g2 now2 iso2
        fh2).updateSequenceNumber := by
  have h1 : (create_event_payload n inst DeploymentState.IN_PROGRESS desc1 g1
      now1 iso1 fh1).updateSequenceNumber = n.base_sequence_number := rfl
  have h2 : (create_event_payload n inst st desc2 g2 now2 iso2
      fh2).updateSequenceNumber =
      if st = DeploymentState.IN_PROGRESS then n.base_sequence_number
      else
        if now2 ≤ n.base_sequence_number then n.base_sequence_number + 1
        else now2 := rfl
  rw [if_neg hst] at h2
  have h2' : (create_event_payload n inst st desc2 g2 now2 iso2
      fh2).updateSequenceNumber = max now2 (n.base_sequence_number + 1) := by
    rw [h2]
    rcases le_or_lt now2 n.base_sequence_number with h | h
    · rw [if_pos h]
      exact (max_eq_right (by omega)).symm
    · rw [if_neg (not_le.mpr h)]
      exact (max_eq_left (by omega)).symm
  refine ⟨h1, h2', ?_⟩
  rw [h1, h2']
  exact lt_of_lt_of_le (by omega) (le_max_right now2 (n.base_sequence_number + 1))

/-- Witness for C3 at concrete inputs: base sequence number 5, terminal clock
reading 3 (a clock that has not advanced), SUCCESSFUL terminal state. -/
theorem c3_update_sequence_numbers_witness :
    (create_event_payload ⟨"development", "app", none, "deploy-5", "t0", 5, none,
        none⟩ ⟨"s", "c", "k", "development"⟩ DeploymentState.IN_PROGRESS "d" ⟨"h", "b"⟩
        5 "t0" none).updateSequenceNumber = 5 ∧
    (create_event_payload ⟨"development", "app", none, "deploy-5", "t0", 5, none,
        none⟩ ⟨"s", "c", "k", "development"⟩ DeploymentState.SUCCESSFUL "d" ⟨"h", "b"⟩
        3 "t1" none).updateSequenceNumber = max 3 (5 + 1) := by
  have h := c3_update_sequence_numbers
    ⟨"development", "app", none, "deploy-5", "t0", 5, none, none⟩
    ⟨"s", "c", "k", "development"⟩ "d" "d" ⟨"h", "b"⟩ ⟨"h", "b"⟩ 5 3 "t0" "t1"
    none none DeploymentState.SUCCESSFUL (by decide)
  exact ⟨h.1, h.2.1⟩

/-- C10: `validate_and_map_environment` is total and case-insensitive — for
every input it returns a member of the five environment types, namely the
uppercased input when that is one of the five and `UNMAPPED` otherwise, and
its value depends only on the uppercased input; and every event payload sets
`environmentId` and `category` to this mapped value while `displayName` keeps
the raw input. -/
theorem c10_environment_mapping :
    (∀ s : String,
        validate_and_map_environment s ∈ VALID_ENVIRONMENT_TYPES ∧
        (pyUpperStr s ∈ VALID_ENVIRONMENT_TYPES →
          validate_and_map_environment s = pyUpperStr s) ∧
        (pyUpperStr s ∉ VALID_ENVIRONMENT_TYPES →
          validate_and_map_environment s = "UNMAPPED") ∧
        validate_and_map_environment (pyUpperStr s) =
          validate_and_map_environment s) ∧
    (∀ (n : NotifierState) (inst : Installation) (st : DeploymentState)
        (d : String) (g : GitInfo) (ms : Int) (iso : String)
        (fh : Option String),
        (create_event_payload n inst st d g ms iso fh).envDisplayName =
          n.environment ∧
        (create_event_payload n inst st d g ms iso fh).environmentId =
          validate_and_map_environment n.environment ∧
        (create_event_payload n inst st d g ms iso fh).category =
          validate_and_map_environment n.environment) := by
  constructor
  · intro s
    refine ⟨?_, ?_, ?_, ?_⟩
    · simp only [validate_and_map_environment]
      split_ifs with h
      · exact h
      · decide
    · intro h
      simp only [validate_and_map_environment]
      rw [if_pos h]
    · intro h
      simp only [validate_and_map_environment]
      rw [if_neg h]
    · simp only [validate_and_map_environment]
      rw [pyUpperStr_idem]
  · intro n inst st d g ms iso fh
    exact ⟨rfl, rfl, rfl⟩

/-- Witness for C10: the lowercase input `production` maps to `PRODUCTION`;
the input `teſting` — whose long s uppercases to `S` in Python — maps to
`TESTING`; and `what` (whose uppercase is not a known type) maps to
`UNMAPPED`. -/
theorem c10_environment_mapping_witness :
    validate_and_map_environment "production" = "PRODUCTION" ∧
    validate_and_map_environment "teſting" = "TESTING" ∧
    validate_and_map_environment "what" = "UNMAPPED" := by
  refine ⟨?_, ?_, ?_⟩
  · have h := (c10_environment_mapping.1 "production").2.1 (by decide)
    rw [h]
    decide
  · have h := (c10_environment_mapping.1 "teſting").2.1 (by decide)
    rw [h]
    decide
  · exact (c10_environment_mapping.1 "what").2.2.1 (by decide)

/-- C8: in every run, an installation receives a FAILED submission only if it
previously received a 2xx-accepted IN_PROGRESS submission of the same run —
on the in-progress-phase compensation path (which targets exactly the
already-`sent` installations) and on the orchestrator's deploy/migration
failure paths (reachable only when every installation reached `sent`). -/
theorem c8_failed_only_after_acknowledged_in_progress
    (env : RunEnv) (i : Installation)
    (h : i ∈ (deploy env).failedRecipients) :
    i ∈ (deploy env).acknowledged := by
  unfold deploy at h ⊢
  by_cases herr : (send_in_progress_notifications env.insts).error.isSome = true
  · rw [if_pos herr] at h ⊢
    simp only [if_neg (by decide :
        ¬ (should_send_failed_notification false false false false = true)),
      List.append_nil] at h
    exact compensated_subset_successful env.insts i h
  · rw [if_neg herr] at h ⊢
    have hnone : (send_in_progress_notifications env.insts).error = none :=
      Option.not_isSome_iff_eq_none.mp herr
    have hall := successful_eq_all_of_error_none env.insts hnone
    by_cases hdep : ¬ env.deployOk = true
    · rw [if_pos hdep] at h ⊢
      simp only [] at h
      rw [if_pos (by decide :
          should_send_failed_notification true false false false = true)] at h
      show i ∈ (send_in_progress_notifications env.insts).successful
      rw [hall]
      exact h
    · rw [if_neg hdep] at h ⊢
      by_cases hmig : env.migrationFatal = true
      · rw [if_pos hmig] at h ⊢
        simp only [] at h
        rw [if_pos (by decide :
            should_send_failed_notification true true true true = true)] at h
        show i ∈ (send_in_progress_notifications env.insts).successful
        rw [hall]
        exact h
      · rw [if_neg hmig] at h ⊢
        by_cases hssr : env.successSendRaises = true
        · rw [if_pos hssr] at h ⊢
          simp only [] at h
          rw [if_pos (by decide :
              should_send_failed_notification true true true false = true)] at h
          show i ∈ (send_in_progress_notifications env.insts).successful
          rw [hall]
          exact h
        · rw [if_neg hssr] at h ⊢
          exact absurd h (List.not_mem_nil i)

/-- Witness for C8: a run whose single installation accepts IN_PROGRESS and
whose deploy step fails; the installation receives FAILED and had been
acknowledged. -/
theorem c8_failed_only_after_acknowledged_witness :
    ⟨"site1", "cloud1", "comp1", "development"⟩ ∈
      (deploy ⟨[⟨⟨"site1", "cloud1", "comp1", "development"⟩,
        some ⟨200, true, false⟩, ⟨true, true, some 200⟩, some 200⟩],
        false, false, false⟩).acknowledged :=
  c8_failed_only_after_acknowledged_in_progress
    ⟨[⟨⟨"site1", "cloud1", "comp1", "development"⟩,
      some ⟨200, true, false⟩, ⟨true, true, some 200⟩, some 200⟩],
      false, false, false⟩
    ⟨"site1", "cloud1", "comp1", "development"⟩ (by decide)

/-- C1: in the two-installation IN_PROGRESS scenario where installation #1 is
accepted (status 200) and installation #2 hits the resource-not-found signal
with failing provisioning (hence `setupFailed`), the `failures` list stays
empty, so `send_in_progress_notifications` submits NO compensating FAILED
event at all — installation #1, although `sent`, is not compensated — and the
run aborts naming installation #2's site in the setup-failure error.  This
contradicts the claim (and the script's own error-handling documentation),
which promise a compensating FAILED to every `sent` installation whenever any
installation reaches `SetupFailed` or `SendFailed`. -/
theorem c1_setup_failure_scenario :
    notif_result ⟨⟨"site2", "cloud2", "comp2", "development"⟩,
        some ⟨404, true, true⟩, ⟨false, false, none⟩, some 200⟩ =
      NotifResult.setupFailed ∧
    (send_in_progress_notifications
        [⟨⟨"site1", "cloud1", "comp1", "development"⟩,
            some ⟨200, true, false⟩, ⟨true, true, some 200⟩, some 200⟩,
         ⟨⟨"site2", "cloud2", "comp2", "development"⟩,
            some ⟨404, true, true⟩, ⟨false, false, none⟩, some 200⟩]).successful =
      [⟨"site1", "cloud1", "comp1", "development"⟩] ∧
    (send_in_progress_notifications
        [⟨⟨"site1", "cloud1", "comp1", "development"⟩,
            some ⟨200, true, false⟩, ⟨true, true, some 200⟩, some 200⟩,
         ⟨⟨"site2", "cloud2", "comp2", "development"⟩,
            some ⟨404, true, true⟩, ⟨false, false, none⟩, some 200⟩]).compensated =
      [] ∧
    (send_in_progress_notifications
        [⟨⟨"site1", "cloud1", "comp1", "development"⟩,
            some ⟨200, true, false⟩, ⟨true, true, some 200⟩, some 200⟩,
         ⟨⟨"site2", "cloud2", "comp2", "development"⟩,
            some ⟨404, true, true⟩, ⟨false, false, none⟩, some 200⟩]).error =
      some (PhaseError.setupError ["site2"]) := by
  refine ⟨rfl, ?_, ?_, ?_⟩ <;> decide

/-- C2: when IN_PROGRESS succeeded, deploy succeeded and the migration
succeeded, but sending the terminal SUCCESS notification raises, the
orchestrator's flags are `in_progress_sent = deployment_succeeded =
post_deployment_phase = true`, which make `_should_send_failed_notification`
return true; the run therefore DOES dispatch FAILED to every installation and
exits 1 — contradicting the claim (and the unreachable in-code branch whose
message says FAILED is not sent in exactly this situation). -/
theorem c2_success_send_failure_sends_failed :
    should_send_failed_notification true true true false = true ∧
    (deploy ⟨[⟨⟨"site1", "cloud1", "comp1", "development"⟩,
        some ⟨200, true, false⟩, ⟨true, true, some 200⟩, some 200⟩],
        true, false, true⟩).failedRecipients =
      [⟨"site1", "cloud1", "comp1", "development"⟩] ∧
    (deploy ⟨[⟨⟨"site1", "cloud1", "comp1", "development"⟩,
        some ⟨200, true, false⟩, ⟨true, true, some 200⟩, some 200⟩],
        true, false, true⟩).exitCode = 1 := by
  refine ⟨rfl, ?_, ?_⟩ <;> decide

/-- Counterexample to C9: a run whose single installation accepts
IN_PROGRESS, whose deploy and migration succeed, and whose terminal SUCCESS
submission returns HTTP 500.  The failure is reported in the post-run summary
and no FAILED is sent, but the process exit code is 0 — not the non-zero
code the claim states. -/
theorem c9_counterexample :
    (deploy ⟨[⟨⟨"site1", "cloud1", "comp1", "development"⟩,
        some ⟨200, true, false⟩, ⟨true, true, some 200⟩, some 500⟩],
        true, false, false⟩).exitCode = 0 ∧
    (deploy ⟨[⟨⟨"site1", "cloud1", "comp1", "development"⟩,
        some ⟨200, true, false⟩, ⟨true, true, some 200⟩, some 500⟩],
        true, false, false⟩).reportedFailures =
      [⟨"site1", "cloud1", "comp1", "development"⟩] ∧
    (deploy ⟨[⟨⟨"site1", "cloud1", "comp1", "development"⟩,
        some ⟨200, true, false⟩, ⟨true, true, some 200⟩, some 500⟩],
        true, false, false⟩).failedRecipients = [] := by
  refine ⟨rfl, ?_, rfl⟩
  decide

/-- C9 amended: when one or more terminal-phase deliveries fail after a
successful deployment, the failures are aggregated into the post-run report,
which names exactly the affected installations; the run outcome is unchanged
(no FAILED is dispatched); but the process exit code stays 0 — terminal
delivery failures do not elevate it. -/
theorem c9_terminal_failures_reported_exit_zero
    (env : RunEnv)
    (herr : (send_in_progress_notifications env.insts).error = none)
    (hdep : env.deployOk = true) (hmig : env.migrationFatal = false)
    (hssr : env.successSendRaises = false) :
    (deploy env).exitCode = 0 ∧
    (deploy env).failedRecipients = [] ∧
    (∀ i : Installation, i ∈ (deploy env).reportedFailures ↔
      ∃ e ∈ env.insts, e.installation = i ∧ final_ok e = false) := by
  unfold deploy
  rw [if_neg (show ¬ ((send_in_progress_notifications env.insts).error.isSome = true) by
    rw [herr]; simp)]
  rw [if_neg (show ¬ ¬ env.deployOk = true by simp [hdep])]
  rw [if_neg (show ¬ env.migrationFatal = true by simp [hmig])]
  rw [if_neg (show ¬ env.successSendRaises = true by simp [hssr])]
  refine ⟨rfl, rfl, ?_⟩
  intro i
  show i ∈ (env.insts.filter (fun e => ¬ final_ok e)).map InstEnv.installation ↔ _
  simp only [List.mem_map, List.mem_filter]
  constructor
  · rintro ⟨e, ⟨he, hf⟩, hi⟩
    refine ⟨e, he, hi, ?_⟩
    simpa using hf
  · rintro ⟨e, he, hi, hf⟩
    refine ⟨e, ⟨he, ?_⟩, hi⟩
    simpa using hf

/-- Witness for C9 amended, at the HTTP 500 run of the counterexample. -/
theorem c9_terminal_failures_witness :
    (deploy ⟨[⟨⟨"siteW", "cloudW", "compW", "development"⟩,
        some ⟨200, true, false⟩, ⟨true, true, some 200⟩, some 500⟩],
        true, false, false⟩).exitCode = 0 :=
  (c9_terminal_failures_reported_exit_zero
    ⟨[⟨⟨"siteW", "cloudW", "compW", "development"⟩,
        some ⟨200, true, false⟩, ⟨true, true, some 200⟩, some 500⟩],
      true, false, false⟩ (by decide) rfl rfl rfl).1

/-- Counterexample to C5: a 201 response — a 2xx status — is classified
`sendFailed`, not `sent` (the code accepts exactly 200 and 202); and a 404
response without the `CREATE_EVENT_SOURCE_NOT_FOUND` signal is classified
`setupFailed`, not `sendFailed`. -/
theorem c5_counterexample :
    process_single_in_progress (some ⟨201, true, false⟩)
        ⟨true, true, some 200⟩ = NotifResult.sendFailed ∧
    process_single_in_progress (some ⟨404, true, false⟩)
        ⟨true, true, some 200⟩ = NotifResult.setupFailed := by
  exact ⟨rfl, rfl⟩

/-- C5 amended: a response with status exactly 200 or 202 is `sent`;
auto-provisioning is attempted exactly for a 404 whose body parses and
carries the resource-not-found signal, and then the outcome is `sent` when
provisioning and the single retry succeed and `setupFailed` otherwise; any
other 404 is `setupFailed`; every remaining response — including other 2xx
codes — and a raised request are `sendFailed`. -/
theorem c5_classification :
    (∀ (r : SubmitResponse) (p : ProvisionEnv),
        (r.status = 200 ∨ r.status = 202) →
          process_single_in_progress (some r) p = NotifResult.sent) ∧
    (∀ (r : SubmitResponse) (p : ProvisionEnv),
        r.status = 404 → r.jsonOk = true → r.hasNotFoundSignal = true →
          process_single_in_progress (some r) p =
            (if try_create_event_source_and_retry p then NotifResult.sent
             else NotifResult.setupFailed)) ∧
    (∀ (r : SubmitResponse) (p : ProvisionEnv),
        r.status = 404 → (r.jsonOk = false ∨ r.hasNotFoundSignal = false) →
          process_single_in_progress (some r) p = NotifResult.setupFailed) ∧
    (∀ (r : SubmitResponse) (p : ProvisionEnv),
        r.status ≠ 200 → r.status ≠ 202 → r.status ≠ 404 →
          process_single_in_progress (some r) p = NotifResult.sendFailed) ∧
    (∀ p : ProvisionEnv,
        process_single_in_progress none p = NotifResult.sendFailed) ∧
    (∀ r : SubmitResponse,
        attempts_provisioning (some r) = true ↔
          r.status = 404 ∧ r.jsonOk = true ∧ r.hasNotFoundSignal = true) := by
  refine ⟨?_, ?_, ?_, ?_, fun p => rfl, ?_⟩
  · intro r p h
    simp only [process_single_in_progress]
    rw [if_neg (show ¬ r.status = 404 by rcases h with h | h <;> simp [h])]
    rw [if_neg (show ¬ (r.status ≠ 200 ∧ r.status ≠ 202) by
      rcases h with h | h <;> simp [h])]
  · intro r p h4 hj hs
    simp only [process_single_in_progress, handle_404_response]
    rw [if_pos h4]
    by_cases ht : try_create_event_source_and_retry p = true <;>
      simp [hj, hs, ht]
  · intro r p h4 hjs
    simp only [process_single_in_progress, handle_404_response]
    rw [if_pos h4]
    rcases hjs with h | h <;> simp [h]
  · intro r p h200 h202 h404
    simp only [process_single_in_progress]
    rw [if_neg h404, if_pos ⟨h200, h202⟩]
  · intro r
    simp [attempts_provisioning, Bool.and_eq_true, and_assoc]

/-- Witness for C5 amended: a 200 response is `sent`, and a signalled 404
with failing provisioning is `setupFailed`. -/
theorem c5_classification_witness :
    process_single_in_progress (some ⟨200, true, false⟩)
        ⟨true, true, some 200⟩ = NotifResult.sent ∧
    process_single_in_progress (some ⟨404, true, true⟩)
        ⟨false, false, none⟩ = NotifResult.setupFailed := by
  constructor
  · exact c5_classification.1 ⟨200, true, false⟩ ⟨true, true, some 200⟩ (Or.inl rfl)
  · have h := c5_classification.2.1 ⟨404, true, true⟩ ⟨false, false, none⟩ rfl rfl rfl
    rw [h]
    decide

theorem mem_verify_installations
    (lookup : String → String → String → Option String) (slug : String) :
    ∀ (ds : List DiscoveredInstall) (i : Installation),
      i ∈ verify_installations lookup slug ds ↔
        ∃ d ∈ ds, ∃ cid,
          lookup slug d.cloud_id (clean_site_url d.site_url) = some cid ∧
          i = ⟨d.site_url, d.cloud_id, cid, d.forge_environment⟩ := by
  intro ds
  induction ds with
  | nil =>
    intro i
    simp [verify_installations]
  | cons d rest ih =>
    intro i
    cases hl : lookup slug d.cloud_id (clean_site_url d.site_url) with
    | none =>
      simp only [verify_installations, hl]
      rw [ih i]
      constructor
      · rintro ⟨d', hd', hrest⟩
        exact ⟨d', List.mem_cons_of_mem d hd', hrest⟩
      · rintro ⟨d', hd', cid, hcid, hi⟩
        rcases List.mem_cons.mp hd' with h | h
        · subst h
          rw [hl] at hcid
          cases hcid
        · exact ⟨d', h, cid, hcid, hi⟩
    | some cid =>
      simp only [verify_installations, hl]
      rw [List.mem_cons, ih i]
      constructor
      · rintro (h | ⟨d', hd', c', hc', hi⟩)
        · exact ⟨d, List.mem_cons_self d rest, cid, hl, h⟩
        · exact ⟨d', List.mem_cons_of_mem d hd', c', hc', hi⟩
      · rintro ⟨d', hd', c', hc', hi⟩
        rcases List.mem_cons.mp hd' with h | h
        · subst h
          rw [hl] at hc'
          injection hc' with hc''
          subst hc''
          exact Or.inl hi
        · exact Or.inr ⟨d', h, c', hc', hi⟩

theorem length_verify_installations
    (lookup : String → String → String → Option String) (slug : String) :
    ∀ ds : List DiscoveredInstall,
      (verify_installations lookup slug ds).length =
        (ds.filter (fun d =>
          (lookup slug d.cloud_id (clean_site_url d.site_url)).isSome)).length := by
  intro ds
  induction ds with
  | nil => rfl
  | cons d rest ih =>
    cases hl : lookup slug d.cloud_id (clean_site_url d.site_url) with
    | none => simp [verify_installations, hl, ih]
    | some cid => simp [verify_installations, hl, ih]

/-- Counterexample to C4: two discovered installations share the cloud id
`cloudX` and the component lookup always succeeds, yet the verifier keeps
both — it performs no deduplication by cloud id.  The spec's dedup-first
algorithm (`spec_dedup_by_cloud_id`) would keep only the first. -/
theorem c4_counterexample :
    verify_installations (fun _ _ _ => some "comp") "slug"
        [⟨"site1", "cloudX", "development"⟩,
         ⟨"site2", "cloudX", "development"⟩] =
      [⟨"site1", "cloudX", "comp", "development"⟩,
       ⟨"site2", "cloudX", "comp", "development"⟩] ∧
    verify_installations (fun _ _ _ => some "comp") "slug"
        (spec_dedup_by_cloud_id
          [⟨"site1", "cloudX", "development"⟩,
           ⟨"site2", "cloudX", "development"⟩]) =
      [⟨"site1", "cloudX", "comp", "development"⟩] := by
  constructor
  · rfl
  · decide

/-- C4 amended: the verifier performs no deduplication — the verified output
contains, in input order, exactly one entry per discovered installation whose
component-slug lookup succeeds (so duplicates by cloud id are retained), and
the run aborts exactly when at least one installation was discovered and none
verified. -/
theorem c4_verifier_no_dedup
    (lookup : String → String → String → Option String) (slug : String)
    (discovered : List DiscoveredInstall) :
    (∀ i : Installation,
      i ∈ verify_installations lookup slug discovered ↔
        ∃ d ∈ discovered, ∃ cid,
          lookup slug d.cloud_id (clean_site_url d.site_url) = some cid ∧
          i = ⟨d.site_url, d.cloud_id, cid, d.forge_environment⟩) ∧
    (verify_installations lookup slug discovered).length =
      (discovered.filter (fun d =>
        (lookup slug d.cloud_id (clean_site_url d.site_url)).isSome)).length ∧
    ((∃ msg, init_installations_result lookup slug discovered =
        Except.error msg) ↔
      discovered ≠ [] ∧ verify_installations lookup slug discovered = []) := by
  refine ⟨mem_verify_installations lookup slug discovered,
    length_verify_installations lookup slug discovered, ?_⟩
  unfold init_installations_result
  simp only []
  split_ifs with h
  · simp only [List.isEmpty_iff] at h
    simp [h.1, h.2]
  · simp only [List.isEmpty_iff] at h
    constructor
    · rintro ⟨msg, hmsg⟩
      cases hmsg
    · intro hc
      exact absurd ⟨hc.1, hc.2⟩ h

/-! ## String lemmas for the description composer -/

theorem str_append_assoc (a b c : String) : (a ++ b) ++ c = a ++ (b ++ c) := by
  apply str_ext
  simp only [String.data_append, List.append_assoc]

theorem str_nil_append (a : String) : "" ++ a = a := by
  apply str_ext
  simp only [String.data_append]
  rfl

theorem joinComma_snoc (ps : List String) (s : String) :
    joinComma (ps ++ [s]) =
      if ps.isEmpty then s else joinComma ps ++ ", " ++ s := by
  induction ps with
  | nil => rfl
  | cons a ps ih =>
    cases ps with
    | nil => rfl
    | cons b ps' =>
      show joinComma (a :: ((b :: ps') ++ [s])) = _
      have h1 : joinComma (a :: ((b :: ps') ++ [s])) =
          a ++ ", " ++ joinComma ((b :: ps') ++ [s]) := rfl
      rw [h1, ih]
      simp only [List.isEmpty_cons, if_neg (by decide : ¬ (false = true))]
      have h2 : joinComma (a :: b :: ps') = a ++ ", " ++ joinComma (b :: ps') := rfl
      rw [h2]
      simp [str_append_assoc]

theorem joinNL_ends (ls : List String) (u : String) :
    ∃ t : String, joinNL (ls ++ [u]) = t ++ u := by
  induction ls with
  | nil => exact ⟨"", (str_nil_append u).symm⟩
  | cons a ls ih =>
    cases ls with
    | nil =>
      refine ⟨a ++ "\n", ?_⟩
      simp [joinNL, str_append_assoc]
    | cons b ls' =>
      obtain ⟨t', ht'⟩ := ih
      refine ⟨a ++ "\n" ++ t', ?_⟩
      show a ++ "\n" ++ joinNL ((b :: ls') ++ [u]) = _
      rw [ht']
      simp [str_append_assoc]

theorem greedyFitAux_spec (remaining : Nat) :
    ∀ (rest parts : List String),
      (parts ≠ [] → (joinComma parts).length +
        (if rest.isEmpty then 0 else 5) ≤ remaining) →
      (∃ k, greedyFitAux rest parts remaining = parts ++ rest.take k) ∧
      (greedyFitAux rest parts remaining ≠ [] →
        (greedyFitAux rest parts remaining).length < parts.length + rest.length →
        (joinComma (greedyFitAux rest parts remaining)).length + 5 ≤ remaining) ∧
      (greedyFitAux rest parts remaining ≠ [] →
        (greedyFitAux rest parts remaining).length = parts.length + rest.length →
        (joinComma (greedyFitAux rest parts remaining)).length ≤ remaining) := by
  intro rest
  induction rest with
  | nil =>
    intro parts H
    refine ⟨⟨0, by simp [greedyFitAux]⟩, ?_, ?_⟩
    · intro _ hlt
      simp only [greedyFitAux, List.length_nil, Nat.add_zero] at hlt
      exact absurd hlt (lt_irrefl _)
    · intro hne _
      have hp : parts ≠ [] := by simpa [greedyFitAux] using hne
      simpa [greedyFitAux] using H hp
  | cons s rest' ih =>
    intro parts H
    have hstep : greedyFitAux (s :: rest') parts remaining =
        if (if parts.isEmpty then s
            else joinComma parts ++ ", " ++ s).length +
            (if rest'.isEmpty then 0 else 5) ≤ remaining then
          greedyFitAux rest' (parts ++ [s]) remaining
        else parts := rfl
    have htest : (if parts.isEmpty then s
        else joinComma parts ++ ", " ++ s) = joinComma (parts ++ [s]) :=
      (joinComma_snoc parts s).symm
    by_cases hc : (if parts.isEmpty then s
        else joinComma parts ++ ", " ++ s).length +
        (if rest'.isEmpty then 0 else 5) ≤ remaining
    · rw [hstep, if_pos hc]
      have H' : parts ++ [s] ≠ [] → (joinComma (parts ++ [s])).length +
          (if rest'.isEmpty then 0 else 5) ≤ remaining := by
        intro _
        rw [← htest]
        exact hc
      obtain ⟨⟨k, hk⟩, h2, h3⟩ := ih (parts ++ [s]) H'
      refine ⟨⟨k + 1, ?_⟩, ?_, ?_⟩
      · rw [hk, List.take_succ_cons, List.append_assoc]
        rfl
      · intro hne hlt
        refine h2 hne ?_
        have heq : (parts ++ [s]).length + rest'.length =
            parts.length + (s :: rest').length := by
          rw [List.length_append, List.length_cons]
          simp
          omega
        rw [heq]
        exact hlt
      · intro hne hlen
        refine h3 hne ?_
        have heq : (parts ++ [s]).length + rest'.length =
            parts.length + (s :: rest').length := by
          rw [List.length_append, List.length_cons]
          simp
          omega
        rw [heq]
        exact hlen
    · rw [hstep, if_neg hc]
      refine ⟨⟨0, by simp⟩, ?_, ?_⟩
      · intro hne _
        have := H hne
        simpa using this
      · intro _ hlen
        rw [List.length_cons] at hlen
        omega

theorem str_append_nil (a : String) : a ++ "" = a := by
  apply str_ext
  simp only [String.data_append]
  show a.data ++ [] = a.data
  exact List.append_nil a.data

theorem greedy_file_parts_take (u : Uncommitted) (remaining : Nat) :
    ∃ k, k ≤ (uncommitted_fragments u).length ∧
      greedy_file_parts u remaining = (uncommitted_fragments u).take k := by
  obtain ⟨⟨k, hk⟩, _, _⟩ :=
    greedyFitAux_spec remaining (uncommitted_fragments u) [] (by simp)
  rw [List.nil_append] at hk
  by_cases hkle : k ≤ (uncommitted_fragments u).length
  · exact ⟨k, hkle, hk⟩
  · refine ⟨(uncommitted_fragments u).length, le_refl _, ?_⟩
    rw [List.take_length]
    rw [List.take_of_length_le (le_of_not_le hkle)] at hk
    exact hk

theorem format_uncommitted_line_none_iff (u : Uncommitted) (max_length : Nat) :
    format_uncommitted_line u max_length = none ↔
      max_length < (uncommitted_base u).length + 3 := by
  unfold format_uncommitted_line
  simp only []
  by_cases h : max_length < (uncommitted_base u).length + 3
  · rw [if_pos h]
    simp [h]
  · rw [if_neg h]
    simp only [not_lt] at h
    constructor
    · intro hcontra
      exfalso
      by_cases he : (greedyFitAux (uncommitted_fragments u) []
          (max_length - (uncommitted_base u).length)).isEmpty
      · rw [if_pos he] at hcontra
        cases hcontra
      · rw [if_neg he] at hcontra
        by_cases hl : (greedyFitAux (uncommitted_fragments u) []
            (max_length - (uncommitted_base u).length)).length <
            (uncommitted_fragments u).length
        · rw [if_pos hl] at hcontra
          cases hcontra
        · rw [if_neg hl] at hcontra
          cases hcontra
    · intro hlt
      omega

theorem format_uncommitted_line_some_spec (u : Uncommitted) (max_length : Nat)
    (s : String) (h : format_uncommitted_line u max_length = some s) :
    s.length ≤ max_length ∧
    ∃ k, k ≤ (uncommitted_fragments u).length ∧
      greedy_file_parts u (max_length - (uncommitted_base u).length) =
        (uncommitted_fragments u).take k ∧
      s = uncommitted_base u ++
        (if k = 0 then "..."
         else joinComma ((uncommitted_fragments u).take k) ++
           (if k < (uncommitted_fragments u).length then ", ..." else "")) := by
  unfold format_uncommitted_line at h
  simp only [] at h
  by_cases hguard : max_length < (uncommitted_base u).length + 3
  · rw [if_pos hguard] at h
    cases h
  · rw [if_neg hguard] at h
    simp only [not_lt] at hguard
    obtain ⟨_, h2, h3⟩ :=
      greedyFitAux_spec (max_length - (uncommitted_base u).length)
        (uncommitted_fragments u) [] (by simp)
    obtain ⟨k, hkle, hparts⟩ :=
      greedy_file_parts_take u (max_length - (uncommitted_base u).length)
    have hparts' : greedyFitAux (uncommitted_fragments u) []
        (max_length - (uncommitted_base u).length) =
        (uncommitted_fragments u).take k := hparts
    have hlenparts : ((uncommitted_fragments u).take k).length = k := by
      rw [List.length_take]
      exact Nat.min_eq_left hkle
    by_cases hemp : (greedyFitAux (uncommitted_fragments u) []
        (max_length - (uncommitted_base u).length)).isEmpty
    · rw [if_pos hemp] at h
      injection h with hs
      have hk0 : k = 0 := by
        rw [List.isEmpty_iff, hparts'] at hemp
        have := congrArg List.length hemp
        rw [hlenparts] at this
        simpa using this
      subst hk0
      constructor
      · rw [← hs, String.length_append]
        have : ("..." : String).length = 3 := rfl
        omega
      · refine ⟨0, Nat.zero_le _, hparts', ?_⟩
        rw [if_pos rfl]
        exact hs.symm
    · rw [if_neg hemp] at h
      have hkne : k ≠ 0 := by
        intro hk0
        rw [List.isEmpty_iff, hparts'] at hemp
        apply hemp
        rw [hk0]
        exact List.take_zero _
      have hgne : greedyFitAux (uncommitted_fragments u) []
          (max_length - (uncommitted_base u).length) ≠ [] := by
        intro hnil
        apply hemp
        rw [hnil]
        rfl
      by_cases hlt : (greedyFitAux (uncommitted_fragments u) []
          (max_length - (uncommitted_base u).length)).length <
          (uncommitted_fragments u).length
      · rw [if_pos hlt] at h
        injection h with hs
        have hklen : k < (uncommitted_fragments u).length := by
          rw [hparts', hlenparts] at hlt
          exact hlt
        have hbound := h2 hgne (by simpa using hlt)
        constructor
        · rw [← hs, String.length_append, String.length_append]
          have h5 : (", ..." : String).length = 5 := rfl
          rw [h5]
          omega
        · refine ⟨k, hkle, hparts', ?_⟩
          rw [if_neg hkne, if_pos hklen, ← hs, hparts']
      · rw [if_neg hlt] at h
        injection h with hs
        have hklen : k = (uncommitted_fragments u).length := by
          simp only [not_lt] at hlt
          rw [hparts', hlenparts] at hlt
          omega
        have hfull : (greedyFitAux (uncommitted_fragments u) []
            (max_length - (uncommitted_base u).length)).length =
            ([] : List String).length + (uncommitted_fragments u).length := by
          rw [hparts', hlenparts, hklen]
          simp
        have hbound := h3 hgne hfull
        constructor
        · rw [← hs, String.length_append]
          omega
        · refine ⟨k, hkle, hparts', ?_⟩
          rw [if_neg hkne, if_neg (by omega : ¬ k < (uncommitted_fragments u).length)]
          rw [str_append_nil, ← hs, hparts']

set_option maxRecDepth 100000 in
/-- Counterexample to C6: an input whose remaining budget is exactly 30 (not
below the threshold) with uncommitted changes present.  The code requires a
budget strictly greater than 30, so the uncommitted line is omitted — the
description is just the base lines plus the user line — while the claim's
algorithm would emit the line. -/
theorem c6_counterexample :
    space_for_uncommitted ⟨DeploymentState.IN_PROGRESS, none, none, "b",
        ⟨List.replicate 198 'h'⟩, "u", some ⟨1, 1, 0, [⟨"f", 1, 0⟩]⟩⟩ = 30 ∧
    (⟨DeploymentState.IN_PROGRESS, none, none, "b",
        ⟨List.replicate 198 'h'⟩, "u",
        some ⟨1, 1, 0, [⟨"f", 1, 0⟩]⟩⟩ : DescInput).uncommitted =
      some ⟨1, 1, 0, [⟨"f", 1, 0⟩]⟩ ∧
    desc_lines ⟨DeploymentState.IN_PROGRESS, none, none, "b",
        ⟨List.replicate 198 'h'⟩, "u", some ⟨1, 1, 0, [⟨"f", 1, 0⟩]⟩⟩ =
      desc_lines_before_uncommitted ⟨DeploymentState.IN_PROGRESS, none, none,
        "b", ⟨List.replicate 198 'h'⟩, "u", some ⟨1, 1, 0, [⟨"f", 1, 0⟩]⟩⟩ ++
      [desc_user_line ⟨DeploymentState.IN_PROGRESS, none, none, "b",
        ⟨List.replicate 198 'h'⟩, "u", some ⟨1, 1, 0, [⟨"f", 1, 0⟩]⟩⟩] := by
  refine ⟨by decide, rfl, by decide⟩

/-- C6 amended: the uncommitted line is omitted when the remaining budget is
at or below 30 — and also when even its base summary plus `"..."` exceeds the
budget (the formatter returns nothing); otherwise the emitted line is the
base summary followed by the greedy fit: the accepted fragments are a prefix
of the per-file fragments in input order, a fragment is accepted only if the
joined fragments plus a 5-character reservation for `", ..."` (when further
files remain) fit the budget, `", ..."` is appended exactly when at least one
fragment was accepted and at least one file omitted, a lone `"..."` stands
when no fragment fits, and the line never exceeds the budget. -/
theorem c6_uncommitted_line_algorithm :
    (∀ (x : DescInput) (u : Uncommitted), x.uncommitted = some u →
      (space_for_uncommitted x ≤ 30 →
        desc_lines x = desc_lines_before_uncommitted x ++ [desc_user_line x]) ∧
      (30 < space_for_uncommitted x →
        format_uncommitted_line u (space_for_uncommitted x).toNat = none →
        desc_lines x = desc_lines_before_uncommitted x ++ [desc_user_line x]) ∧
      (∀ s, 30 < space_for_uncommitted x →
        format_uncommitted_line u (space_for_uncommitted x).toNat = some s →
        desc_lines x =
          desc_lines_before_uncommitted x ++ [s, desc_user_line x])) ∧
    (∀ (u : Uncommitted) (max_length : Nat),
      format_uncommitted_line u max_length = none ↔
        max_length < (uncommitted_base u).length + 3) ∧
    (∀ (u : Uncommitted) (max_length : Nat) (s : String),
      format_uncommitted_line u max_length = some s →
      s.length ≤ max_length ∧
      ∃ k, k ≤ (uncommitted_fragments u).length ∧
        greedy_file_parts u (max_length - (uncommitted_base u).length) =
          (uncommitted_fragments u).take k ∧
        s = uncommitted_base u ++
          (if k = 0 then "..."
           else joinComma ((uncommitted_fragments u).take k) ++
             (if k < (uncommitted_fragments u).length then ", ..." else ""))) := by
  refine ⟨?_, format_uncommitted_line_none_iff, format_uncommitted_line_some_spec⟩
  intro x u hu
  refine ⟨?_, ?_, ?_⟩
  · intro h30
    simp only [desc_lines, hu]
    rw [if_neg (not_lt.mpr h30)]
  · intro h30 hnone
    simp only [desc_lines, hu]
    rw [if_pos h30, hnone]
  · intro s h30 hsome
    simp only [desc_lines, hu]
    rw [if_pos h30, hsome]
    simp

set_option maxRecDepth 100000 in
/-- Witness for C6 amended, on a small input with one uncommitted file whose
fragment fits the budget: the line appears before the user line. -/
theorem c6_uncommitted_line_witness :
    desc_lines ⟨DeploymentState.IN_PROGRESS, none, none, "b", "c", "u",
        some ⟨1, 1, 0, [⟨"f.txt", 1, 0⟩]⟩⟩ =
      desc_lines_before_uncommitted ⟨DeploymentState.IN_PROGRESS, none, none,
        "b", "c", "u", some ⟨1, 1, 0, [⟨"f.txt", 1, 0⟩]⟩⟩ ++
      ["+ 1 uncommitted: (+1/-0) - f.txt (+1/-0)",
       desc_user_line ⟨DeploymentState.IN_PROGRESS, none, none, "b", "c", "u",
        some ⟨1, 1, 0, [⟨"f.txt", 1, 0⟩]⟩⟩] :=
  ((c6_uncommitted_line_algorithm.1
    ⟨DeploymentState.IN_PROGRESS, none, none, "b", "c", "u",
      some ⟨1, 1, 0, [⟨"f.txt", 1, 0⟩]⟩⟩
    ⟨1, 1, 0, [⟨"f.txt", 1, 0⟩]⟩ rfl).2.2
    "+ 1 uncommitted: (+1/-0) - f.txt (+1/-0)" (by decide) (by decide))

theorem str_ends_iff (s u : String) :
    (∃ t : String, s = t ++ u) ↔
      s.data.drop (s.data.length - u.data.length) = u.data := by
  constructor
  · rintro ⟨t, rfl⟩
    rw [String.data_append]
    have hlen : (t.data ++ u.data).length - u.data.length = t.data.length := by
      rw [List.length_append]
      omega
    rw [hlen, List.drop_left]
  · intro h
    refine ⟨⟨s.data.take (s.data.length - u.data.length)⟩, ?_⟩
    apply str_ext
    rw [String.data_append]
    show s.data = s.data.take (s.data.length - u.data.length) ++ u.data
    calc s.data
        = s.data.take (s.data.length - u.data.length) ++
            s.data.drop (s.data.length - u.data.length) :=
          (List.take_append_drop _ s.data).symm
      _ = s.data.take (s.data.length - u.data.length) ++ u.data := by rw [h]

set_option maxRecDepth 100000 in
/-- Counterexample to C7: with a 300-character commit hash the assembled
description exceeds 255 characters, the safety truncation keeps only the
first 252 characters plus `"..."`, and the user line is cut off entirely —
the description does not end with the user line. -/
theorem c7_counterexample :
    ¬ ∃ t : String,
      create_deployment_description ⟨DeploymentState.IN_PROGRESS, none, none,
          "b", ⟨List.replicate 300 'h'⟩, "ZZZ", none⟩ =
        t ++ ("User: " ++ "ZZZ") := by
  rw [str_ends_iff]
  decide

/-- C7 amended: every composed description is at most 255 characters and
composition is deterministic (a pure function of its inputs); the
user-identity line is last whenever the assembled description already fits in
255 characters — when it does not, the output is its first 252 characters
plus `"..."` and the user line can be truncated away. -/
theorem c7_description_bounds (x : DescInput) :
    (create_deployment_description x).length ≤ 255 ∧
    (∀ y : DescInput, x = y →
      create_deployment_description x = create_deployment_description y) ∧
    ((desc_untruncated x).length ≤ 255 →
      ∃ t : String, create_deployment_description x =
        t ++ ("User: " ++ x.user_name)) := by
  refine ⟨?_, fun y hy => by rw [hy], ?_⟩
  · unfold create_deployment_description
    simp only []
    split_ifs with h
    · rw [String.length_append]
      have h3 : ("..." : String).length = 3 := rfl
      have htake := strTake_length_le (desc_untruncated x) 252
      omega
    · omega
  · intro h
    unfold create_deployment_description
    simp only []
    rw [if_neg (not_lt.mpr h)]
    unfold desc_untruncated desc_lines
    exact joinNL_ends _ (desc_user_line x)

/-- Witness for C7 amended at a short input: the description fits and ends
with the user line. -/
theorem c7_description_bounds_witness :
    (create_deployment_description ⟨DeploymentState.IN_PROGRESS, none, none,
        "b", "c", "u", none⟩).length ≤ 255 ∧
    ∃ t : String,
      create_deployment_description ⟨DeploymentState.IN_PROGRESS, none, none,
          "b", "c", "u", none⟩ = t ++ ("User: " ++ "u") :=
  ⟨(c7_description_bounds ⟨DeploymentState.IN_PROGRESS, none, none,
      "b", "c", "u", none⟩).1,
   (c7_description_bounds ⟨DeploymentState.IN_PROGRESS, none, none,
      "b", "c", "u", none⟩).2.2 (by decide)⟩

/-- Witness for C4 amended: the second duplicate-cloud-id installation is in
the verified output. -/
theorem c4_verifier_no_dedup_witness :
    (⟨"site2", "cloudX", "comp", "development"⟩ : Installation) ∈
      verify_installations (fun _ _ _ => some "comp") "slug"
        [⟨"site1", "cloudX", "development"⟩,
         ⟨"site2", "cloudX", "development"⟩] := by
  refine ((c4_verifier_no_dedup (fun _ _ _ => some "comp") "slug"
      [⟨"site1", "cloudX", "development"⟩,
       ⟨"site2", "cloudX", "development"⟩]).1
      ⟨"site2", "cloudX", "comp", "development"⟩).mpr ?_
  exact ⟨⟨"site2", "cloudX", "development"⟩, by decide, "comp", rfl, rfl⟩
